import Mathlib

/-!
# Verification of the `jenkins-rs` client (`src/lib.rs`)

Shallow embedding of the Jenkins build-trigger client.  The two operations
under study are:

* `poll_queue_item` — the queue resolver loop.  Its interaction with the
  network is modelled by a finite list of poll outcomes (one entry per HTTP
  round trip the loop performs); exhausting the list means the loop is still
  running (for an infinite queued stream the loop never terminates, which the
  finite-prefix model captures as `PollResult.running` on every finite prefix).
* `build_with_parameter` — the trigger operation, which on a 2xx response with
  a `Location` header hands that header's string to `poll_queue_item` and
  returns the polling outcome.

Errors are reported through `anyhow`; the embedding distinguishes the states
an `anyhow::Error` produced by this code can hold: one of the crate's own
`Error` variants (`bail!(Error::…)`), a raw transport (`reqwest`) error
(`bail!(err)` in `build_with_parameter`), or a decode failure with its
`.context(…)` string.  A panic (`expect`) is a distinct outcome, not an error
value.

Timing and request emission are modelled by an event trace: each iteration of
the resolver loop contributes `sleep 3` followed by the GET of the queue URL,
and the trigger contributes the initial POST.
-/

/-- Model of `reqwest::Error` (an opaque transport failure). -/
structure TransportError where
  desc : String
deriving Repr, DecidableEq

/-- `pub struct QueueItemExecutable { number: i32, url: String }`. -/
structure QueueItemExecutable where
  number : Int
  url : String
deriving Repr, DecidableEq

/-- `pub struct QueueItemRes { why: Option<String>, executable: Option<QueueItemExecutable> }`. -/
structure QueueItemRes where
  why : Option String
  executable : Option QueueItemExecutable
deriving Repr, DecidableEq

/-- The crate's `enum Error`. -/
inductive JenkinsError where
  | APIError (msg : String)
  | QueueItemNotExists
  | NetworkError (err : TransportError)
deriving Repr, DecidableEq

/-- The states an `anyhow::Error` escaping this crate's functions can hold:
a crate `Error` variant, a raw `reqwest::Error` (from `bail!(err)`), or a
serde decode failure wrapped with a `.context` string. -/
inductive AnyhowError where
  | jenkins (e : JenkinsError)
  | transport (e : TransportError)
  | decode (context : String) (serdeMsg : String)
deriving Repr, DecidableEq

/-- `StatusCode::is_success()`: `200 ≤ s < 300`. -/
def is_success (status : Nat) : Bool := 200 ≤ status && status < 300

/-- `StatusCode::is_client_error()`: `400 ≤ s < 500`. -/
def is_client_error (status : Nat) : Bool := 400 ≤ status && status < 500

deriving instance DecidableEq for Except

/-- One HTTP response to a poll of the queue URL: its status code and the
result of `serde` decoding of its body as `QueueItemRes` (the body itself is
out of scope; only its decode outcome matters to the code). -/
structure PollResponse where
  status : Nat
  body : Except String QueueItemRes
deriving Repr, DecidableEq

/-- One network round trip of the resolver loop: a response, or a
`reqwest::Error` from `send()`. -/
abbrev PollStep := Except TransportError PollResponse

/-- Outcome of `poll_queue_item` after consuming a finite list of poll steps:
returned `Ok(qi)`, returned an error, or still looping (the provided steps did
not make it terminate). -/
inductive PollResult where
  | resolved (qi : QueueItemRes)
  | failed (e : AnyhowError)
  | running
deriving Repr, DecidableEq

/-- The body of the `loop` in `poll_queue_item`, iterated over the provided
poll steps.  Mirrors `src/lib.rs` lines 77–102: on `Err` bail
`Error::NetworkError(err)`; on a client-error status bail
`Error::QueueItemNotExists`; otherwise decode the body (`.context("parse
queue item payload as json")` on failure); return the decoded value when
`executable` is present, else loop. -/
def poll_queue_item : List PollStep → PollResult
  | [] => .running
  | step :: rest =>
    match step with
    | .error err => .failed (.jenkins (.NetworkError err))
    | .ok queue_res =>
      if is_client_error queue_res.status then
        .failed (.jenkins .QueueItemNotExists)
      else
        match queue_res.body with
        | .error e => .failed (.decode "parse queue item payload as json" e)
        | .ok qi_res =>
          if qi_res.executable.isSome then .resolved qi_res
          else poll_queue_item rest

/-- Observable events of a run: a `tokio::time::sleep` of `n` seconds, a GET,
or a POST of the given URL. -/
inductive Event where
  | sleepSecs (n : Nat)
  | getReq (url : String)
  | postReq (url : String)
deriving Repr, DecidableEq

/-- Event trace of `poll_queue_item` on the queue url (already suffixed with
`api/json`): each iteration sleeps 3 seconds then issues the GET, and the
trace stops at the iteration that terminates the loop. -/
def poll_events (queue_url : String) : List PollStep → List Event
  | [] => []
  | step :: rest =>
    .sleepSecs 3 :: .getReq queue_url ::
      (match step with
       | .error _ => []
       | .ok queue_res =>
         if is_client_error queue_res.status then []
         else
           match queue_res.body with
           | .error _ => []
           | .ok qi_res =>
             if qi_res.executable.isSome then []
             else poll_events queue_url rest)

/-- Still-queued poll step: a response with a non-client-error status whose
body decodes to a `QueueItemRes` with `executable` absent.  This is the one
case in which the loop body neither returns nor bails. -/
def stillQueued (step : PollStep) : Prop :=
  ∃ resp qi, step = .ok resp ∧ is_client_error resp.status = false ∧
    resp.body = .ok qi ∧ qi.executable = none

instance (step : PollStep) : Decidable (stillQueued step) := by
  unfold stillQueued
  match step with
  | .error err => exact .isFalse (by simp)
  | .ok resp =>
    match h : resp.body with
    | .error e =>
      exact .isFalse fun ⟨r, q, hr, h1, hb, h2⟩ => by
        cases hr; rw [h] at hb; cases hb
    | .ok qi =>
      exact decidable_of_iff
        (is_client_error resp.status = false ∧ qi.executable = none)
        (by constructor
            · rintro ⟨h1, h2⟩; exact ⟨resp, qi, rfl, h1, h, h2⟩
            · rintro ⟨r, q, hr, h1, hb, h2⟩
              cases hr
              rw [h] at hb
              cases hb
              exact ⟨h1, h2⟩)

/-! ## Decimal rendering of a status code (Rust's `Display for u16`) -/

/-- The decimal digit character for `d % 10`. -/
def natDigitChar (d : Nat) : Char :=
  match d with
  | 0 => '0' | 1 => '1' | 2 => '2' | 3 => '3' | 4 => '4'
  | 5 => '5' | 6 => '6' | 7 => '7' | 8 => '8' | 9 => '9'
  | _ => '0'

/-- Fuel-driven accumulator loop producing the decimal digits of `n`,
most-significant first, in front of `acc`. -/
def natDecimalAux : Nat → Nat → List Char → List Char
  | 0, _, acc => acc
  | fuel + 1, n, acc =>
    if n = 0 then acc else natDecimalAux fuel (n / 10) (natDigitChar (n % 10) :: acc)

/-- Decimal digit string of `n`, as Rust's `{}` formatting of an unsigned
integer prints it. -/
def natDecimal (n : Nat) : List Char :=
  if n = 0 then ['0'] else natDecimalAux n n []

/-- `StatusCode::canonical_reason()` of the `http` crate, as a total function
returning the `unwrap_or("<unknown status code>")` default used by
`Display for StatusCode`. -/
def canonical_reason (s : Nat) : String :=
  match s with
  | 100 => "Continue" | 101 => "Switching Protocols" | 102 => "Processing"
  | 200 => "OK" | 201 => "Created" | 202 => "Accepted"
  | 203 => "Non-Authoritative Information" | 204 => "No Content"
  | 205 => "Reset Content" | 206 => "Partial Content" | 207 => "Multi-Status"
  | 208 => "Already Reported" | 226 => "IM Used"
  | 300 => "Multiple Choices" | 301 => "Moved Permanently" | 302 => "Found"
  | 303 => "See Other" | 304 => "Not Modified" | 305 => "Use Proxy"
  | 307 => "Temporary Redirect" | 308 => "Permanent Redirect"
  | 400 => "Bad Request" | 401 => "Unauthorized" | 402 => "Payment Required"
  | 403 => "Forbidden" | 404 => "Not Found" | 405 => "Method Not Allowed"
  | 406 => "Not Acceptable" | 407 => "Proxy Authentication Required"
  | 408 => "Request Timeout" | 409 => "Conflict" | 410 => "Gone"
  | 411 => "Length Required" | 412 => "Precondition Failed"
  | 413 => "Payload Too Large" | 414 => "URI Too Long"
  | 415 => "Unsupported Media Type" | 416 => "Range Not Satisfiable"
  | 417 => "Expectation Failed" | 418 => "I\x27m a teapot"
  | 421 => "Misdirected Request" | 422 => "Unprocessable Entity"
  | 423 => "Locked" | 424 => "Failed Dependency" | 426 => "Upgrade Required"
  | 428 => "Precondition Required" | 429 => "Too Many Requests"
  | 431 => "Request Header Fields Too Large"
  | 451 => "Unavailable For Legal Reasons"
  | 500 => "Internal Server Error" | 501 => "Not Implemented"
  | 502 => "Bad Gateway" | 503 => "Service Unavailable"
  | 504 => "Gateway Timeout" | 505 => "HTTP Version Not Supported"
  | 506 => "Variant Also Negotiates" | 507 => "Insufficient Storage"
  | 508 => "Loop Detected" | 510 => "Not Extended"
  | 511 => "Network Authentication Required"
  | _ => "<unknown status code>"

/-- `Display for StatusCode`: the numeric code, a space, and the canonical
reason (or the unknown-status placeholder). -/
def statusDisplay (s : Nat) : String :=
  String.mk (natDecimal s ++ ' ' :: (canonical_reason s).data)

/-- The `Error::APIError` message built by `build_with_parameter` for a
non-success trigger status: `format!("http status: {}", res.status())`. -/
def apiStatusMsg (s : Nat) : String :=
  "http status: " ++ statusDisplay s

/-! ## Recovering the numeric status from the API error message -/

/-- ASCII decimal digit test. -/
def isDigitChar (c : Char) : Bool := 48 ≤ c.toNat && c.toNat ≤ 57

/-- Split off the maximal leading run of decimal digits. -/
def takeDigits : List Char → List Char × List Char
  | [] => ([], [])
  | c :: cs =>
    if isDigitChar c then
      let (ds, rest) := takeDigits cs
      (c :: ds, rest)
    else ([], c :: cs)

/-- Value of a digit string, most-significant first. -/
def digitsToNat (ds : List Char) : Nat :=
  ds.foldl (fun a c => a * 10 + (c.toNat - 48)) 0

/-- Strip an expected prefix off a character list. -/
def stripPrefixChars : List Char → List Char → Option (List Char)
  | [], rest => some rest
  | _, [] => none
  | p :: ps, c :: cs => if p = c then stripPrefixChars ps cs else none

/-- Parse the numeric status code out of an `http status: …` API error
message. -/
def statusFromApiMsg (msg : String) : Option Nat :=
  match stripPrefixChars "http status: ".data msg.data with
  | none => none
  | some rest =>
    let (ds, _) := takeDigits rest
    if ds.isEmpty then none else some (digitsToNat ds)

/-! ## The trigger operation -/

/-- `HeaderValue` bytes are convertible by `to_str` exactly when every byte is
visible ASCII or a tab (`http` crate's `is_visible_ascii`). -/
def is_visible_ascii (b : Nat) : Bool := (32 ≤ b && b < 127) || b = 9

/-- `HeaderValue::to_str()`: `Ok` with the bytes read as characters when all
bytes are visible ASCII, `Err` otherwise. -/
def header_to_str (bytes : List Nat) : Option String :=
  if bytes.all is_visible_ascii then some (String.mk (bytes.map Char.ofNat))
  else none

/-- The trigger response: HTTP status and the raw bytes of the `location`
header when one is present. -/
structure TriggerResponse where
  status : Nat
  location : Option (List Nat)
deriving Repr, DecidableEq

/-- Outcome of `build_with_parameter`: returned `Ok(qi)`, returned an error,
panicked in `expect`, or still inside the polling loop (the provided poll
steps did not make it terminate). -/
inductive TriggerOutcome where
  | ok (qi : QueueItemRes)
  | err (e : AnyhowError)
  | panicked (expectMsg : String)
  | running
deriving Repr, DecidableEq

/-- `build_with_parameter` (`src/lib.rs` lines 112–137), with the network
modelled by the trigger round trip's outcome and the list of poll round trips
available to the nested `poll_queue_item` call.  On a success status with a
`location` header it converts the header (`expect("location header")` panics
when conversion fails) and returns the result of polling; a missing header or
a non-success status bails with `Error::APIError`; a transport error on the
POST bails with the raw `reqwest` error. -/
def build_with_parameter (trigger : Except TransportError TriggerResponse)
    (polls : List PollStep) : TriggerOutcome :=
  match trigger with
  | .error err => .err (.transport err)
  | .ok res =>
    if is_success res.status then
      match res.location with
      | some location =>
        match header_to_str location with
        | some _queue_url =>
          match poll_queue_item polls with
          | .resolved qi => .ok qi
          | .failed e => .err e
          | .running => .running
        | none => .panicked "location header"
      | none => .err (.jenkins (.APIError "location header not available"))
    else .err (.jenkins (.APIError (apiStatusMsg res.status)))

/-- Event trace of `build_with_parameter`: the POST to the job's
`buildWithParameters` URL, followed by the poll trace of `poll_queue_item`
on `{location}api/json` when the success branch reaches it. -/
def build_events (base job : String) (trigger : Except TransportError TriggerResponse)
    (polls : List PollStep) : List Event :=
  .postReq (base ++ "/job/" ++ job ++ "/buildWithParameters") ::
    (match trigger with
     | .error _ => []
     | .ok res =>
       if is_success res.status then
         match res.location with
         | some location =>
           match header_to_str location with
           | some queue_url => poll_events (queue_url ++ "api/json") polls
           | none => []
         | none => []
       else [])

/-! ## Concrete scenario data (the mock run of spec §8) -/

/-- Bytes of the `Location` header `https://ci.example/queue/item/42/`. -/
def locBytes42 : List Nat := "https://ci.example/queue/item/42/".data.map Char.toNat

/-- The 201 trigger response carrying that `Location` header. -/
def trigRes201 : TriggerResponse := ⟨201, some locBytes42⟩

/-- The resolved build of the scenario: number 107. -/
def exec107 : QueueItemExecutable := ⟨107, "https://ci.example/job/smoke-test/107/"⟩

/-- A poll response while the item is still queued. -/
def queuedStep : PollStep := .ok ⟨200, .ok ⟨some "waiting", none⟩⟩

/-- The poll response once the build is assigned. -/
def resolvedStep : PollStep := .ok ⟨200, .ok ⟨none, some exec107⟩⟩

/-- The scenario's poll sequence: queued twice, then resolved. -/
def scenarioPolls : List PollStep := [queuedStep, queuedStep, resolvedStep]

/-- GET-request event test. -/
def isGet : Event → Bool
  | .getReq _ => true
  | _ => false

/-- Sleep event test. -/
def isSleep : Event → Bool
  | .sleepSecs _ => true
  | _ => false

/-! ## Helper lemmas about the resolver loop -/

theorem poll_queue_item_cons_stillQueued (step : PollStep) (rest : List PollStep)
    (h : stillQueued step) : poll_queue_item (step :: rest) = poll_queue_item rest := by
  obtain ⟨resp, qi, hstep, hce, hbody, hexec⟩ := h
  subst hstep
  simp [poll_queue_item, hce, hbody, hexec]

theorem poll_events_cons_stillQueued (u : String) (step : PollStep) (rest : List PollStep)
    (h : stillQueued step) :
    poll_events u (step :: rest) = .sleepSecs 3 :: .getReq u :: poll_events u rest := by
  obtain ⟨resp, qi, hstep, hce, hbody, hexec⟩ := h
  subst hstep
  simp [poll_events, hce, hbody, hexec]

theorem poll_queue_item_all_queued (polls : List PollStep)
    (h : ∀ x ∈ polls, stillQueued x) : poll_queue_item polls = .running := by
  induction polls with
  | nil => rfl
  | cons step rest ih =>
    rw [poll_queue_item_cons_stillQueued step rest (h step (by simp))]
    exact ih fun x hx => h x (by simp [hx])

/-- Each iteration's events are the 3-second sleep then the GET of the queue
URL; the tail is empty (loop terminated) or the next iteration's events. -/
theorem poll_events_cons (u : String) (step : PollStep) (rest : List PollStep) :
    ∃ t, poll_events u (step :: rest) = .sleepSecs 3 :: .getReq u :: t ∧
      (t = [] ∨ t = poll_events u rest) := by
  rcases step with err | resp
  · exact ⟨[], rfl, .inl rfl⟩
  · by_cases hce : is_client_error resp.status
    · exact ⟨[], by simp [poll_events, hce], .inl rfl⟩
    · rcases hb : resp.body with e | qi
      · exact ⟨[], by simp [poll_events, hce, hb], .inl rfl⟩
      · by_cases hex : qi.executable.isSome
        · exact ⟨[], by simp [poll_events, hce, hb, hex], .inl rfl⟩
        · exact ⟨poll_events u rest, by simp [poll_events, hce, hb, hex], .inr rfl⟩

/-- Every GET issued by the resolver loop targets the queue URL it was given. -/
theorem poll_events_get_url (u : String) (polls : List PollStep) (url : String)
    (h : Event.getReq url ∈ poll_events u polls) : url = u := by
  induction polls with
  | nil => simp [poll_events] at h
  | cons step rest ih =>
    obtain ⟨t, ht, hcases⟩ := poll_events_cons u step rest
    rw [ht, List.mem_cons, List.mem_cons] at h
    rcases h with h | h | h
    · cases h
    · cases h; rfl
    · rcases hcases with rfl | rfl
      · simp at h
      · exact ih h

/-- C2: the resolver returns `Ok` only for a response whose decoded
`executable` is present, and the value returned is exactly the decoded record
of the first such response: every earlier poll step decoded with `executable`
absent. -/
theorem poll_queue_item_resolves_first_executable (polls : List PollStep) (qi : QueueItemRes)
    (h : poll_queue_item polls = .resolved qi) :
    qi.executable.isSome = true ∧
    ∃ pre resp rest, polls = pre ++ .ok resp :: rest ∧
      (∀ x ∈ pre, stillQueued x) ∧
      is_client_error resp.status = false ∧ resp.body = .ok qi := by
  induction polls with
  | nil => cases h
  | cons step rest ih =>
    rcases step with err | resp
    · simp [poll_queue_item] at h
    · cases hce : is_client_error resp.status with
      | true => simp [poll_queue_item, hce] at h
      | false =>
        rcases hb : resp.body with e | q
        · simp [poll_queue_item, hce, hb] at h
        · cases hex : q.executable with
          | some ex =>
            have hq : q = qi := by
              simp [poll_queue_item, hce, hb, hex] at h
              exact h
            subst hq
            exact ⟨by simp [hex], [], resp, rest, rfl, by simp, hce, hb⟩
          | none =>
            have hsq : stillQueued (.ok resp) := ⟨resp, q, rfl, hce, hb, hex⟩
            rw [poll_queue_item_cons_stillQueued _ _ hsq] at h
            obtain ⟨hsome, pre, resp2, rest2, heq, hpre, hce2, hb2⟩ := ih h
            refine ⟨hsome, .ok resp :: pre, resp2, rest2, by simp [heq], ?_, hce2, hb2⟩
            intro x hx
            rcases List.mem_cons.1 hx with rfl | hx
            · exact hsq
            · exact hpre x hx

theorem poll_queue_item_resolves_first_executable_witness :
    (⟨none, some exec107⟩ : QueueItemRes).executable.isSome = true ∧
    ∃ pre resp rest, scenarioPolls = pre ++ .ok resp :: rest ∧
      (∀ x ∈ pre, stillQueued x) ∧
      is_client_error resp.status = false ∧ resp.body = .ok ⟨none, some exec107⟩ :=
  poll_queue_item_resolves_first_executable scenarioPolls ⟨none, some exec107⟩ (by decide)

/-- C3: once a poll response has a client-error (4xx) status, the resolver
returns `Error::QueueItemNotExists` at that iteration: the event trace is
unchanged by anything queued behind that response, and the number of GETs
issued is exactly the still-queued prefix plus the one failing poll. -/
theorem poll_queue_item_client_error_terminates (u : String) (pre rest : List PollStep)
    (resp : PollResponse) (hpre : ∀ x ∈ pre, stillQueued x)
    (hce : is_client_error resp.status = true) :
    poll_queue_item (pre ++ .ok resp :: rest) = .failed (.jenkins .QueueItemNotExists) ∧
    poll_events u (pre ++ .ok resp :: rest) = poll_events u (pre ++ [.ok resp]) ∧
    ((poll_events u (pre ++ .ok resp :: rest)).filter isGet).length = pre.length + 1 := by
  induction pre with
  | nil =>
    refine ⟨by simp [poll_queue_item, hce], by simp [poll_events, hce], ?_⟩
    simp [poll_events, hce, isGet]
  | cons step pre ih =>
    have hq := hpre step (by simp)
    have ihh := ih fun x hx => hpre x (by simp [hx])
    simp only [List.cons_append]
    rw [poll_queue_item_cons_stillQueued _ _ hq, poll_events_cons_stillQueued _ _ _ hq,
      poll_events_cons_stillQueued _ _ _ hq]
    refine ⟨ihh.1, by rw [ihh.2.1], ?_⟩
    simp [isGet, ihh.2.2]

theorem poll_queue_item_client_error_terminates_witness :
    poll_queue_item [queuedStep, .ok ⟨404, .error "no body"⟩, queuedStep]
      = .failed (.jenkins .QueueItemNotExists) ∧
    poll_events "q" [queuedStep, .ok ⟨404, .error "no body"⟩, queuedStep]
      = poll_events "q" [queuedStep, .ok ⟨404, .error "no body"⟩] ∧
    ((poll_events "q" [queuedStep, .ok ⟨404, .error "no body"⟩, queuedStep]).filter isGet).length
      = [queuedStep].length + 1 :=
  poll_queue_item_client_error_terminates "q" [queuedStep] [queuedStep]
    ⟨404, .error "no body"⟩ (by decide) (by decide)

/-- When the resolver loop terminates, some poll step caused it: the first
non-still-queued step is a decoded `executable`, a client-error status, a
transport error, or a decode failure. -/
theorem poll_terminaison_cause (polls : List PollStep)
    (hne : poll_queue_item polls ≠ .running) :
    ∃ pre step rest, polls = pre ++ step :: rest ∧ (∀ x ∈ pre, stillQueued x) ∧
      ((∃ resp qi, step = .ok resp ∧ is_client_error resp.status = false ∧
          resp.body = .ok qi ∧ qi.executable.isSome = true) ∨
       (∃ resp, step = .ok resp ∧ is_client_error resp.status = true) ∨
       (∃ err, step = .error err) ∨
       (∃ resp e, step = .ok resp ∧ is_client_error resp.status = false ∧
          resp.body = .error e)) := by
  induction polls with
  | nil => exact absurd rfl hne
  | cons step rest ih =>
    by_cases hq : stillQueued step
    · rw [poll_queue_item_cons_stillQueued _ _ hq] at hne
      obtain ⟨pre, st, rst, heq, hpre, hcause⟩ := ih hne
      refine ⟨step :: pre, st, rst, by simp [heq], ?_, hcause⟩
      intro x hx
      rcases List.mem_cons.1 hx with rfl | hx
      · exact hq
      · exact hpre x hx
    · refine ⟨[], step, rest, rfl, by simp, ?_⟩
      rcases step with err | resp
      · exact .inr (.inr (.inl ⟨err, rfl⟩))
      · cases hce : is_client_error resp.status with
        | true => exact .inr (.inl ⟨resp, rfl, hce⟩)
        | false =>
          rcases hb : resp.body with e | qi
          · exact .inr (.inr (.inr ⟨resp, e, rfl, hce, hb⟩))
          · cases hex : qi.executable with
            | some ex => exact .inl ⟨resp, qi, rfl, hce, hb, by simp [hex]⟩
            | none => exact absurd ⟨resp, qi, rfl, hce, hb, hex⟩ hq

/-- C4: the resolver loop has no iteration bound or timeout — after consuming
any finite number of still-queued responses it is still running — and when it
does terminate, the cause is one of: a decoded `executable` (Resolved), a
client-error status (Vanished), a transport error, or a JSON decode
failure. -/
theorem poll_queue_item_no_builtin_bound (polls : List PollStep) :
    ((∀ x ∈ polls, stillQueued x) → poll_queue_item polls = .running) ∧
    (poll_queue_item polls ≠ .running →
      ∃ pre step rest, polls = pre ++ step :: rest ∧ (∀ x ∈ pre, stillQueued x) ∧
        ((∃ resp qi, step = .ok resp ∧ is_client_error resp.status = false ∧
            resp.body = .ok qi ∧ qi.executable.isSome = true) ∨
         (∃ resp, step = .ok resp ∧ is_client_error resp.status = true) ∨
         (∃ err, step = .error err) ∨
         (∃ resp e, step = .ok resp ∧ is_client_error resp.status = false ∧
            resp.body = .error e))) :=
  ⟨poll_queue_item_all_queued polls, poll_terminaison_cause polls⟩

theorem poll_queue_item_no_builtin_bound_witness :
    poll_queue_item [queuedStep, queuedStep, queuedStep, queuedStep] = .running :=
  (poll_queue_item_no_builtin_bound [queuedStep, queuedStep, queuedStep, queuedStep]).1
    (by decide)

/-- C6: in the resolver's event trace every GET of the queue URL is
immediately preceded by the fixed 3-second sleep, the first poll included. -/
theorem sleep_precedes_every_poll (u : String) (polls : List PollStep) (i : Nat) (url : String)
    (h : (poll_events u polls)[i]? = some (.getReq url)) :
    ∃ j, i = j + 1 ∧ (poll_events u polls)[j]? = some (.sleepSecs 3) := by
  induction polls generalizing i with
  | nil => simp [poll_events] at h
  | cons step rest ih =>
    obtain ⟨t, ht, hcases⟩ := poll_events_cons u step rest
    rw [ht] at h ⊢
    match i, h with
    | 0, h => simp at h
    | 1, h => exact ⟨0, rfl, rfl⟩
    | (n+2), h =>
      rw [List.getElem?_cons_succ, List.getElem?_cons_succ] at h
      rcases hcases with rfl | rfl
      · simp at h
      · obtain ⟨j, rfl, hj⟩ := ih n h
        exact ⟨j + 2, rfl, by rw [List.getElem?_cons_succ, List.getElem?_cons_succ]; exact hj⟩

theorem sleep_precedes_every_poll_witness :
    ∃ j, 1 = j + 1 ∧
      (poll_events "q/api/json" [queuedStep, resolvedStep])[j]? = some (.sleepSecs 3) :=
  sleep_precedes_every_poll "q/api/json" [queuedStep, resolvedStep] 1 "q/api/json" (by decide)

/-! ### Correctness of the decimal rendering/parsing pair, for every status -/

theorem natDigitChar_val : ∀ d, d < 10 → (natDigitChar d).toNat - 48 = d := by decide

theorem natDigitChar_isDigit : ∀ d, d < 10 → isDigitChar (natDigitChar d) = true := by decide

theorem natDecimalAux_zero (fuel : Nat) (acc : List Char) :
    natDecimalAux fuel 0 acc = acc := by
  cases fuel <;> simp [natDecimalAux]

theorem natDecimalAux_acc (fuel : Nat) :
    ∀ n acc, n ≤ fuel → natDecimalAux fuel n acc = natDecimalAux fuel n [] ++ acc := by
  induction fuel with
  | zero =>
    intro n acc h
    interval_cases n
    simp [natDecimalAux]
  | succ m ih =>
    intro n acc h
    by_cases h0 : n = 0
    · subst h0; simp [natDecimalAux_zero]
    · have hdiv : n / 10 ≤ m := by
        have hlt10 : n / 10 < n := Nat.div_lt_self (Nat.pos_of_ne_zero h0) (by norm_num)
        omega
      simp only [natDecimalAux, if_neg h0]
      rw [ih (n / 10) (natDigitChar (n % 10) :: acc) hdiv,
        ih (n / 10) [natDigitChar (n % 10)] hdiv]
      simp

theorem natDecimalAux_val :
    ∀ n fuel, n ≤ fuel → digitsToNat (natDecimalAux fuel n []) = n := by
  intro n
  induction n using Nat.strong_induction_on with
  | h n ih =>
    intro fuel hle
    by_cases h0 : n = 0
    · subst h0; simp [natDecimalAux_zero, digitsToNat]
    · obtain ⟨m, rfl⟩ : ∃ m, fuel = m + 1 := ⟨fuel - 1, by omega⟩
      have hlt : n / 10 < n := Nat.div_lt_self (Nat.pos_of_ne_zero h0) (by norm_num)
      have hdiv : n / 10 ≤ m := by omega
      simp only [natDecimalAux, if_neg h0]
      rw [natDecimalAux_acc m (n / 10) [natDigitChar (n % 10)] hdiv]
      unfold digitsToNat
      rw [List.foldl_append]
      have hrec : List.foldl (fun a c => a * 10 + (c.toNat - 48)) 0
          (natDecimalAux m (n / 10) []) = n / 10 := ih (n / 10) hlt m hdiv
      rw [hrec]
      simp only [List.foldl]
      rw [natDigitChar_val (n % 10) (Nat.mod_lt _ (by norm_num))]
      omega

theorem natDecimalAux_digits (fuel : Nat) :
    ∀ n acc, n ≤ fuel → (∀ c ∈ acc, isDigitChar c = true) →
      ∀ c ∈ natDecimalAux fuel n acc, isDigitChar c = true := by
  induction fuel with
  | zero =>
    intro n acc h hacc
    interval_cases n
    simpa [natDecimalAux] using hacc
  | succ m ih =>
    intro n acc h hacc
    by_cases h0 : n = 0
    · subst h0; simpa [natDecimalAux_zero] using hacc
    · have hdiv : n / 10 ≤ m := by
        have hlt10 : n / 10 < n := Nat.div_lt_self (Nat.pos_of_ne_zero h0) (by norm_num)
        omega
      simp only [natDecimalAux, if_neg h0]
      refine ih (n / 10) _ hdiv ?_
      intro c hc
      rcases List.mem_cons.1 hc with rfl | hc
      · exact natDigitChar_isDigit _ (Nat.mod_lt _ (by norm_num))
      · exact hacc c hc

theorem natDecimalAux_ne_nil (fuel : Nat) :
    ∀ n acc, n ≠ 0 → n ≤ fuel → natDecimalAux fuel n acc ≠ [] := by
  induction fuel with
  | zero => intro n acc h0 h; omega
  | succ m ih =>
    intro n acc h0 h
    simp only [natDecimalAux, if_neg h0]
    by_cases hq : n / 10 = 0
    · rw [hq, natDecimalAux_zero]; simp
    · refine ih (n / 10) _ hq ?_
      have hlt10 : n / 10 < n := Nat.div_lt_self (Nat.pos_of_ne_zero h0) (by norm_num)
      omega

theorem natDecimal_digits (n : Nat) : ∀ c ∈ natDecimal n, isDigitChar c = true := by
  by_cases h0 : n = 0
  · subst h0
    intro c hc
    rw [natDecimal] at hc
    simp at hc
    subst hc
    decide
  · intro c hc
    rw [natDecimal, if_neg h0] at hc
    exact natDecimalAux_digits n n [] le_rfl (by simp) c hc

theorem natDecimal_ne_nil (n : Nat) : natDecimal n ≠ [] := by
  by_cases h0 : n = 0
  · subst h0; simp [natDecimal]
  · rw [natDecimal, if_neg h0]
    exact natDecimalAux_ne_nil n n [] h0 le_rfl

theorem digitsToNat_natDecimal (n : Nat) : digitsToNat (natDecimal n) = n := by
  by_cases h0 : n = 0
  · subst h0; decide
  · rw [natDecimal, if_neg h0]
    exact natDecimalAux_val n n le_rfl

theorem stripPrefixChars_append (p r : List Char) :
    stripPrefixChars p (p ++ r) = some r := by
  induction p with
  | nil => simp [stripPrefixChars]
  | cons x p ih => simp [stripPrefixChars, ih]

theorem takeDigits_append (ds : List Char) (c : Char) (rest : List Char)
    (hds : ∀ x ∈ ds, isDigitChar x = true) (hc : isDigitChar c = false) :
    takeDigits (ds ++ c :: rest) = (ds, c :: rest) := by
  induction ds with
  | nil => simp [takeDigits, hc]
  | cons d ds ih =>
    have hd : isDigitChar d = true := hds d (by simp)
    have hrec := ih fun x hx => hds x (by simp [hx])
    simp [takeDigits, hd, hrec]

/-- For every numeric status, the code is parsed back out of the
`http status: …` message built by `build_with_parameter`. -/
theorem statusFromApiMsg_roundtrip (s : Nat) :
    statusFromApiMsg (apiStatusMsg s) = some s := by
  have hdata : (apiStatusMsg s).data
      = "http status: ".data ++ (natDecimal s ++ ' ' :: (canonical_reason s).data) := by
    simp [apiStatusMsg, statusDisplay, String.data_append]
  have hempty : (natDecimal s).isEmpty = false := by
    cases h : natDecimal s with
    | nil => exact absurd h (natDecimal_ne_nil s)
    | cons a t => rfl
  unfold statusFromApiMsg
  rw [hdata, stripPrefixChars_append]
  simp only [takeDigits_append (natDecimal s) ' ' (canonical_reason s).data
    (natDecimal_digits s) (by decide), hempty, digitsToNat_natDecimal]
  simp

/-- The resolver loop never constructs an `Error::APIError`. -/
theorem poll_queue_item_ne_APIError (polls : List PollStep) (msg : String) :
    poll_queue_item polls ≠ .failed (.jenkins (.APIError msg)) := by
  induction polls with
  | nil => simp [poll_queue_item]
  | cons step rst ih =>
    rcases step with err | r
    · simp [poll_queue_item]
    · cases hc : is_client_error r.status with
      | true => simp [poll_queue_item, hc]
      | false =>
        rcases hbb : r.body with e | q
        · simp [poll_queue_item, hc, hbb]
        · cases hx : q.executable.isSome with
          | true => simp [poll_queue_item, hc, hbb, hx]
          | false => simpa [poll_queue_item, hc, hbb, hx] using ih

/-- C1 counterexample: with the same 2xx trigger response carrying the
`Location` header for queue item 42, the result of `build_with_parameter`
changes with the poll responses and, when resolved, is the decoded
`QueueItemRes` (build number 107) — not the `Location` header's value, which
the function only forwards to the resolver. -/
theorem trigger_returns_location_counterexample :
    is_success trigRes201.status = true ∧
    trigRes201.location = some locBytes42 ∧
    header_to_str locBytes42 = some "https://ci.example/queue/item/42/" ∧
    build_with_parameter (.ok trigRes201) scenarioPolls = .ok ⟨none, some exec107⟩ ∧
    build_with_parameter (.ok trigRes201) [] = .running ∧
    build_with_parameter (.ok trigRes201) scenarioPolls
      ≠ build_with_parameter (.ok trigRes201) [] := by decide

/-- C1 (amended): on a 2xx trigger response with a convertible `Location`
header, `build_with_parameter` forwards exactly that header value, unmodified,
to the queue resolver — every GET it causes targets `{location}api/json` — and
returns the resolver's outcome. -/
theorem trigger_forwards_location_to_resolver (res : TriggerResponse) (loc : List Nat)
    (s : String) (polls : List PollStep) (base job : String)
    (hs : is_success res.status = true) (hloc : res.location = some loc)
    (hstr : header_to_str loc = some s) :
    (build_with_parameter (.ok res) polls =
      match poll_queue_item polls with
      | .resolved qi => .ok qi
      | .failed e => .err e
      | .running => .running) ∧
    ∀ u, Event.getReq u ∈ build_events base job (.ok res) polls → u = s ++ "api/json" := by
  constructor
  · simp [build_with_parameter, hs, hloc, hstr]
  · intro u hu
    simp only [build_events, hs, hloc, hstr, if_true, List.mem_cons] at hu
    rcases hu with h | h
    · cases h
    · exact poll_events_get_url _ _ _ h

theorem trigger_forwards_location_to_resolver_witness :
    (build_with_parameter (.ok trigRes201) scenarioPolls =
      match poll_queue_item scenarioPolls with
      | .resolved qi => .ok qi
      | .failed e => .err e
      | .running => .running) ∧
    ∀ u, Event.getReq u ∈
        build_events "https://jenkins.domain.com" "smoke-test" (.ok trigRes201) scenarioPolls →
      u = "https://ci.example/queue/item/42/" ++ "api/json" :=
  trigger_forwards_location_to_resolver trigRes201 locBytes42
    "https://ci.example/queue/item/42/" scenarioPolls "https://jenkins.domain.com" "smoke-test"
    (by decide) (by decide) (by decide)

/-- C5 counterexample: when the POST itself fails, `build_with_parameter`
bails with the raw `reqwest` error (`bail!(err)`), not with the crate's
`Error::NetworkError` variant, so the reported error is not of the client's
error taxonomy. -/
theorem trigger_transport_error_counterexample :
    build_with_parameter (.error ⟨"connection refused"⟩) scenarioPolls
      = .err (.transport ⟨"connection refused"⟩) ∧
    build_with_parameter (.error ⟨"connection refused"⟩) scenarioPolls
      ≠ .err (.jenkins (.NetworkError ⟨"connection refused"⟩)) := by decide

/-- C5 (amended): a transport failure on the trigger POST is propagated
directly as the underlying transport error (anyhow-wrapped `reqwest::Error`,
not the crate's `Error::NetworkError` variant), and no polling happens: the
run's trace has no GET and no sleep. -/
theorem trigger_transport_error_propagates_raw (err : TransportError)
    (polls : List PollStep) (base job : String) :
    build_with_parameter (.error err) polls = .err (.transport err) ∧
    (build_events base job (.error err) polls).filter isGet = [] ∧
    (build_events base job (.error err) polls).filter isSleep = [] := by
  refine ⟨rfl, ?_, ?_⟩ <;> simp [build_events, isGet, isSleep]

/-- C7: a 2xx trigger response without a `Location` header makes
`build_with_parameter` bail with `Error::APIError("location header not
available")`, and the run issues no GET (no poll of the queue endpoint). -/
theorem trigger_missing_location_api_error (s : Nat) (polls : List PollStep)
    (base job : String) (hs : is_success s = true) :
    build_with_parameter (.ok ⟨s, none⟩) polls
      = .err (.jenkins (.APIError "location header not available")) ∧
    (build_events base job (.ok ⟨s, none⟩) polls).filter isGet = [] := by
  constructor
  · simp [build_with_parameter, hs]
  · simp [build_events, hs, isGet]

theorem trigger_missing_location_api_error_witness :
    build_with_parameter (.ok ⟨201, none⟩) scenarioPolls
      = .err (.jenkins (.APIError "location header not available")) ∧
    (build_events "https://jenkins.domain.com" "smoke-test"
      (.ok ⟨201, none⟩) scenarioPolls).filter isGet = [] :=
  trigger_missing_location_api_error 201 scenarioPolls
    "https://jenkins.domain.com" "smoke-test" (by decide)

/-- C8: a non-2xx trigger response makes `build_with_parameter` bail with
`Error::APIError(format!("http status: {}", res.status()))`; the numeric
status is recoverable from that message, and no poll GET is issued. -/
theorem trigger_non_success_api_error (res : TriggerResponse) (polls : List PollStep)
    (base job : String) (hs : is_success res.status = false) :
    build_with_parameter (.ok res) polls
      = .err (.jenkins (.APIError (apiStatusMsg res.status))) ∧
    statusFromApiMsg (apiStatusMsg res.status) = some res.status ∧
    (build_events base job (.ok res) polls).filter isGet = [] := by
  refine ⟨by simp [build_with_parameter, hs], statusFromApiMsg_roundtrip res.status, ?_⟩
  simp [build_events, hs, isGet]

theorem trigger_non_success_api_error_witness :
    build_with_parameter (.ok ⟨404, none⟩) scenarioPolls
      = .err (.jenkins (.APIError (apiStatusMsg 404))) ∧
    statusFromApiMsg (apiStatusMsg 404) = some 404 ∧
    (build_events "https://jenkins.domain.com" "smoke-test"
      (.ok ⟨404, none⟩) scenarioPolls).filter isGet = [] :=
  trigger_non_success_api_error ⟨404, none⟩ scenarioPolls
    "https://jenkins.domain.com" "smoke-test" (by decide)

/-- C9: a poll response whose status is neither success nor client error (a
5xx, say) is not turned into an API error: the loop decodes the body, and if
it parses with `executable` absent the loop simply continues; indeed the
resolver never produces an `Error::APIError` at all. -/
theorem poll_server_error_continues (resp : PollResponse) (qi : QueueItemRes)
    (rest : List PollStep) (_hns : is_success resp.status = false)
    (hce : is_client_error resp.status = false) (hb : resp.body = .ok qi)
    (hex : qi.executable = none) :
    poll_queue_item (.ok resp :: rest) = poll_queue_item rest ∧
    ∀ polls msg, poll_queue_item polls ≠ .failed (.jenkins (.APIError msg)) :=
  ⟨poll_queue_item_cons_stillQueued _ _ ⟨resp, qi, rfl, hce, hb, hex⟩,
   poll_queue_item_ne_APIError⟩

theorem poll_server_error_continues_witness :
    poll_queue_item (.ok ⟨500, .ok ⟨some "waiting", none⟩⟩ :: scenarioPolls)
      = poll_queue_item scenarioPolls ∧
    ∀ polls msg, poll_queue_item polls ≠ .failed (.jenkins (.APIError msg)) :=
  poll_server_error_continues ⟨500, .ok ⟨some "waiting", none⟩⟩ ⟨some "waiting", none⟩
    scenarioPolls (by decide) (by decide) (by decide) (by decide)

/-- C10: a 2xx trigger response whose `Location` header holds bytes rejected
by `HeaderValue::to_str` (not visible ASCII in the `http` crate's sense, which
also admits tab) makes `build_with_parameter` panic in
`expect("location header")` instead of returning an error value. -/
theorem trigger_opaque_location_panics (res : TriggerResponse) (loc : List Nat)
    (polls : List PollStep) (hs : is_success res.status = true)
    (hloc : res.location = some loc) (hbad : loc.all is_visible_ascii = false) :
    build_with_parameter (.ok res) polls = .panicked "location header" := by
  simp [build_with_parameter, hs, hloc, header_to_str, hbad]

theorem trigger_opaque_location_panics_witness :
    build_with_parameter (.ok ⟨201, some [104, 128, 10]⟩) scenarioPolls
      = .panicked "location header" :=
  trigger_opaque_location_panics ⟨201, some [104, 128, 10]⟩ [104, 128, 10]
    scenarioPolls (by decide) (by decide) (by decide)
